import Mathlib

/-!
Verification of PyThreadServe, a minimal HTTP/1.0 file server
(`server.py`, with an alternative handler in `request_handler.py`).

The development shallowly embeds the parts of the source that the claims
are about:

* the POST admission controller (`HTTPServer.active_posts` together with
  the check-and-increment in `_process_request_wrapper` and the scoped
  decrement in its `finally` block);
* the byte-accumulation/framing loop of `_process_request_wrapper`;
* `Worker.handle_get_request` / `Worker.handle_post_request` and the
  corresponding `RequestHandler` methods;
* the first-request-line parse and the per-request worker loop.

Conventions of the embedding:

* raw bytes are `List Nat`; Python `str` values are `List Char`
  (UTF-8 decoding/encoding is modelled bytewise via `Char.toNat`, which is
  exact on the ASCII data the claims are about);
* the file system is a finite association list from Python's normalized
  path strings to file contents; `os.path.normpath` is modelled with `/`
  as the path separator;
* nondeterministic inputs of the source (timestamps, uuid fragments,
  whether the OS raises during a file write) are explicit parameters;
* exceptions are `Except`/`Option` results.
-/

namespace PyThreadServe

abbrev Bytes := List Nat

/-- Bytes of an ASCII string literal (UTF-8 modelled bytewise). -/
def strBytes (s : String) : Bytes := s.data.map Char.toNat

/-- Encoding of a Python `str` to bytes, modelled bytewise. -/
def charsToBytes (s : List Char) : Bytes := s.map Char.toNat

/-! ## Admission controller

`HTTPServer.__init__` creates `active_posts = Value('i', 0)` guarded by
`posts_lock`.  `_process_request_wrapper` (server.py lines 252-265)
performs the admission check-and-increment under the lock, and the
`finally` block (lines 267-273) performs the decrement.  Because every
read-modify-write happens under `posts_lock`, the concurrent system is
modelled as an interleaving of atomic acquire/reject/release steps. -/

/-- The admission check-and-increment of `_process_request_wrapper`
(server.py lines 252-265): if `active_posts.value >= 5` the POST is
rejected and the counter is untouched, otherwise the counter is
incremented and the POST accepted.  The counter is an `Int` because the
shared `Value('i', 0)` is a signed machine integer.
`RequestHandler.handle_post_request` (request_handler.py lines 17-24)
performs the same check-and-increment. -/
def tryAcquire (counter : Int) : Int × Bool :=
  if counter ≥ 5 then (counter, false) else (counter + 1, true)

/-- The decrement `self.active_posts.value -= 1` performed in the
`finally` block of `_process_request_wrapper` (server.py lines 270-273)
and of `RequestHandler.handle_post_request` (request_handler.py lines
50-53). -/
def release (counter : Int) : Int := counter - 1

/-- State of the shared admission counter, together with the (ghost)
number of in-flight POSTs that have acquired a slot and not yet released
it. -/
structure AdmState where
  counter : Int
  inflight : Nat
  deriving DecidableEq, Repr

/-- Initial state: `Value('i', 0)` and no in-flight POSTs. -/
def initAdm : AdmState := ⟨0, 0⟩

/-- Atomic transitions of the admission counter, as performed (under
`posts_lock`) by the threads of `_process_request_wrapper`: a successful
check-and-increment, a rejected check, and the scoped decrement that the
`finally` block runs for each POST that acquired a slot. -/
inductive AdmStep : AdmState → AdmState → Prop
  | acquireOk (s : AdmState) (h : (tryAcquire s.counter).2 = true) :
      AdmStep s ⟨(tryAcquire s.counter).1, s.inflight + 1⟩
  | acquireFail (s : AdmState) (h : (tryAcquire s.counter).2 = false) :
      AdmStep s ⟨(tryAcquire s.counter).1, s.inflight⟩
  | releaseSlot (s : AdmState) (h : 0 < s.inflight) :
      AdmStep s ⟨release s.counter, s.inflight - 1⟩

/-- Reachable states of the admission counter, starting from the freshly
constructed server. -/
def AdmReachable (s : AdmState) : Prop :=
  Relation.ReflTransGen AdmStep initAdm s

/-- Net effect on the admission counter of one POST request flowing
through `_process_request_wrapper` (server.py lines 252-273): the
check-and-increment, then — only when the slot was acquired — the
handling (whose outcome is irrelevant to the counter because the
decrement sits in a `finally` block) followed by the decrement. -/
inductive PostOutcome
  | ok
  | fsError
  | exn
  deriving DecidableEq, Repr

/-- Counter value after one POST request has fully left
`_process_request_wrapper`, for each possible handling outcome. -/
def counterAfterPost (counter : Int) (_outcome : PostOutcome) : Int :=
  let acq := tryAcquire counter
  if acq.2 then release acq.1 else acq.1

/-- One admission step preserves the counter/in-flight correspondence
and the bound 5. -/
theorem admStep_preserves {s s' : AdmState} (hstep : AdmStep s s')
    (ih : s.counter = (s.inflight : Int) ∧ s.inflight ≤ 5) :
    s'.counter = (s'.inflight : Int) ∧ s'.inflight ≤ 5 := by
  cases hstep with
  | acquireOk hacq =>
    unfold tryAcquire at hacq ⊢
    by_cases hc : s.counter ≥ 5
    · simp [hc] at hacq
    · simp only [if_neg hc]
      refine ⟨by push_cast; rw [ih.1], ?_⟩
      have hcount : (s.inflight : Int) < 5 := by
        rw [← ih.1]; exact lt_of_not_ge hc
      have : s.inflight < 5 := by exact_mod_cast hcount
      omega
  | acquireFail hacq =>
    unfold tryAcquire at hacq ⊢
    by_cases hc : s.counter ≥ 5
    · simp only [if_pos hc]
      exact ih
    · simp [hc] at hacq
  | releaseSlot hpos =>
    have hle5 : s.inflight - 1 ≤ 5 := by omega
    refine ⟨?_, hle5⟩
    unfold release
    rw [ih.1]
    exact_mod_cast (Int.ofNat_sub hpos).symm

/-- Invariant of the admission system: the counter always equals the
number of in-flight slot holders, and never exceeds 5. -/
theorem admInvariant (s : AdmState) (h : AdmReachable s) :
    s.counter = (s.inflight : Int) ∧ s.inflight ≤ 5 := by
  induction h with
  | refl => exact ⟨rfl, by decide⟩
  | tail _hmid hstep ih => exact admStep_preserves hstep ih

/-- Claim C1: in every reachable state the shared admission counter
satisfies `0 ≤ counter ≤ 5`; the check-and-increment increments only when
the observed value is strictly below 5, and at value 5 the POST is
rejected with the counter unchanged. -/
theorem admission_counter_bounded (s : AdmState) (h : AdmReachable s) :
    (0 ≤ s.counter ∧ s.counter ≤ 5) ∧
    (∀ c : Int,
      ((tryAcquire c).2 = true → c < 5 ∧ (tryAcquire c).1 = c + 1) ∧
      (c = 5 → tryAcquire c = (c, false))) := by
  obtain ⟨hcnt, hle⟩ := admInvariant s h
  refine ⟨⟨by rw [hcnt]; exact_mod_cast Nat.zero_le _, ?_⟩, ?_⟩
  · rw [hcnt]; exact_mod_cast hle
  · intro c
    constructor
    · intro htrue
      unfold tryAcquire at htrue ⊢
      by_cases hc : c ≥ 5
      · simp [hc] at htrue
      · exact ⟨lt_of_not_ge hc, by simp [hc]⟩
    · intro hc5
      subst hc5
      unfold tryAcquire
      norm_num

/-- Witness for C1 at the initial state. -/
theorem admission_counter_bounded_witness :
    (0 ≤ initAdm.counter ∧ initAdm.counter ≤ 5) ∧
    (∀ c : Int,
      ((tryAcquire c).2 = true → c < 5 ∧ (tryAcquire c).1 = c + 1) ∧
      (c = 5 → tryAcquire c = (c, false))) :=
  admission_counter_bounded initAdm Relation.ReflTransGen.refl

/-- Claim C2: every POST that acquires a slot decrements the counter
exactly once on every exit path (the handling outcome never changes the
net effect, which is zero), rejected POSTs never decrement, and once all
in-flight POSTs have completed (no slot holders remain) the counter is
back to 0. -/
theorem admission_release_balanced :
    (∀ (c : Int) (o : PostOutcome), counterAfterPost c o = c) ∧
    (∀ s : AdmState, AdmReachable s → s.inflight = 0 → s.counter = 0) := by
  constructor
  · intro c o
    unfold counterAfterPost tryAcquire release
    by_cases hc : c ≥ 5 <;> simp [hc]
  · intro s hs hz
    have := (admInvariant s hs).1
    rw [hz] at this
    simpa using this

/-- Witness for C2: concrete run of one accepted POST from counter 0,
for each outcome, and the initial quiescent state. -/
theorem admission_release_balanced_witness :
    counterAfterPost 0 PostOutcome.fsError = 0 ∧ initAdm.counter = 0 :=
  ⟨admission_release_balanced.1 0 PostOutcome.fsError,
   admission_release_balanced.2 initAdm Relation.ReflTransGen.refl rfl⟩

/-! ## Request framing

The byte-accumulation loop of `_process_request_wrapper` (server.py
lines 210-224) repeatedly calls `client_socket.recv(4096)`, appends each
chunk, and stops when either the connection closes (empty chunk), or the
`\r\n\r\n` separator has arrived and — when a `content-length` header is
present — at least that many body bytes have accumulated.  The sequence
of `recv` results is modelled as a list of chunks; the end of the list,
like an empty chunk, models a closed connection. -/

/-- The header/body separator bytes `\r\n\r\n`. -/
def crlfcrlf : Bytes := [13, 10, 13, 10]

/-- Python `data.split(b'\r\n\r\n', 1)` around the first occurrence of
the separator, `none` when the separator is absent (`b'\r\n\r\n' in
request_data` is `(splitSep data).isSome`). -/
def splitSep : Bytes → Option (Bytes × Bytes)
  | [] => none
  | b :: rest =>
    if (b :: rest).take 4 = crlfcrlf then some ([], rest.drop 3)
    else
      match splitSep rest with
      | none => none
      | some (pre, post) => some (b :: pre, post)

/-- Python `headers.split(b'\r\n')`. -/
def splitCRLF : Bytes → List Bytes
  | [] => [[]]
  | 13 :: 10 :: rest => [] :: splitCRLF rest
  | b :: rest =>
    match splitCRLF rest with
    | [] => [[b]]
    | h :: t => (b :: h) :: t

/-- ASCII lower-casing of one byte, as in Python `bytes.lower()`. -/
def lowerByte (b : Nat) : Nat := if 65 ≤ b ∧ b ≤ 90 then b + 32 else b

/-- The header-field name the framing loop scans for (line 220). -/
def clFieldBytes : Bytes := strBytes "content-length:"

/-- Python `line.split(b':', 1)[1]`: everything after the first colon
(empty when there is no colon, a case the loop never hits because the
matched line starts with `content-length:`). -/
def afterColon : Bytes → Bytes
  | [] => []
  | b :: rest => if b = 58 then rest else afterColon rest

/-- ASCII whitespace bytes stripped by Python `bytes.strip()`. -/
def isSpaceByte (b : Nat) : Bool :=
  b = 32 || b = 9 || b = 10 || b = 13 || b = 11 || b = 12

/-- Python `bytes.strip()`. -/
def stripBytes (l : Bytes) : Bytes :=
  ((l.dropWhile isSpaceByte).reverse.dropWhile isSpaceByte).reverse

/-- Value of a nonempty run of ASCII digits, `none` otherwise. -/
def digitsVal (l : Bytes) : Option Nat :=
  if l = [] then none
  else if l.all (fun b => decide (48 ≤ b) && decide (b ≤ 57)) then
    some (l.foldl (fun acc b => acc * 10 + (b - 48)) 0)
  else none

/-- Python `int()` on an already-stripped byte string: an optional sign
followed by a nonempty digit run; anything else raises `ValueError`
(modelled as `none`; digit-group underscores are not modelled). -/
def parseIntBytes : Bytes → Option Int
  | 45 :: rest => (digitsVal rest).map (fun n => -(n : Int))
  | 43 :: rest => (digitsVal rest).map (fun n => (n : Int))
  | l => (digitsVal l).map (fun n => (n : Int))

/-- The `content_length` extraction of the framing loop (server.py lines
218-222): scan the header lines for the first whose lower-cased form
starts with `content-length:`; parse the part after the first colon,
stripped, with `int()`.  `.ok none` when no such line exists; `.error`
when `int()` raises (which propagates out of the whole loop). -/
def findContentLength (headerBlock : Bytes) : Except Unit (Option Int) :=
  match (splitCRLF headerBlock).find?
      (fun line => clFieldBytes.isPrefixOf (line.map lowerByte)) with
  | none => Except.ok none
  | some line =>
    match parseIntBytes (stripBytes (afterColon line)) with
    | some n => Except.ok (some n)
    | none => Except.error ()

/-- The receive/accumulate loop of `_process_request_wrapper` (server.py
lines 210-224).  `acc` is `request_data`; the chunk list models the
successive results of `client_socket.recv(4096)`, with an empty chunk
(or the end of the list) standing for a closed connection.  The result
is the final `request_data`, or `.error` when `int()` raised on a
malformed `content-length` value. -/
def recvLoop : Bytes → List Bytes → Except Unit Bytes
  | acc, [] => Except.ok acc
  | acc, c :: rest =>
    if c = [] then Except.ok acc
    else
      match splitSep (acc ++ c) with
      | none => recvLoop (acc ++ c) rest
      | some (hdrs, body) =>
        match findContentLength hdrs with
        | Except.error _ => Except.error ()
        | Except.ok none => Except.ok (acc ++ c)
        | Except.ok (some n) =>
          if (body.length : Int) ≥ n then Except.ok (acc ++ c)
          else recvLoop (acc ++ c) rest

/-- When the separator is absent from a byte string, it is absent from
every prefix of it. -/
theorem splitSep_append_none {l t : Bytes} (h : splitSep (l ++ t) = none) :
    splitSep l = none := by
  induction l with
  | nil => rfl
  | cons b l' ih =>
    rw [List.cons_append] at h
    unfold splitSep at h ⊢
    by_cases hp : (b :: l').take 4 = crlfcrlf
    · exfalso
      have h4 : ((b :: l').take 4).length = 4 := by rw [hp]; rfl
      rw [List.length_take] at h4
      have hlen : 4 ≤ (b :: l').length := min_eq_left_iff.mp h4
      rw [if_pos (by
        rw [← List.cons_append, List.take_append_of_le_length hlen]; exact hp)] at h
      exact Option.noConfusion h
    · rw [if_neg hp]
      by_cases hq : (b :: (l' ++ t)).take 4 = crlfcrlf
      · rw [if_pos hq] at h
        exact Option.noConfusion h
      · rw [if_neg hq] at h
        have hrec : splitSep (l' ++ t) = none := by
          cases hcase : splitSep (l' ++ t) with
          | none => rfl
          | some pr =>
            rw [hcase] at h
            exact Option.noConfusion h
        rw [ih hrec]

/-- One iteration of the loop once the separator has been found in
`acc ++ c`. -/
theorem recvLoop_cons_found {acc c : Bytes} {rest : List Bytes}
    {hdrs body : Bytes} (hc : c ≠ [])
    (hs : splitSep (acc ++ c) = some (hdrs, body)) :
    recvLoop acc (c :: rest) =
      match findContentLength hdrs with
      | Except.error _ => Except.error ()
      | Except.ok none => Except.ok (acc ++ c)
      | Except.ok (some n) =>
        if (body.length : Int) ≥ n then Except.ok (acc ++ c)
        else recvLoop (acc ++ c) rest := by
  rw [recvLoop, if_neg hc, hs]

/-- When no chunk is empty, the separator first appears with chunk `c`,
and the header block carries no `content-length` line, the loop stops
right after `c`: the chunks in `post` are never received. -/
theorem recvLoop_no_cl_aux (pre : List Bytes) :
    ∀ (acc c : Bytes) (post : List Bytes) (hdrs body : Bytes),
    (∀ x ∈ pre, x ≠ []) → c ≠ [] →
    splitSep (acc ++ pre.flatten) = none →
    splitSep (acc ++ pre.flatten ++ c) = some (hdrs, body) →
    findContentLength hdrs = Except.ok none →
    recvLoop acc (pre ++ c :: post) = Except.ok (acc ++ pre.flatten ++ c) := by
  induction pre with
  | nil =>
    intro acc c post hdrs body _ hc _hn hsome hcl
    simp only [List.flatten_nil, List.append_nil] at hsome ⊢
    rw [List.nil_append, recvLoop_cons_found hc hsome, hcl]
  | cons p pre' ih =>
    intro acc c post hdrs body hne hc hnone hsome hcl
    have hp : p ≠ [] := hne p (List.mem_cons_self p pre')
    have hassoc1 : acc ++ (p :: pre').flatten = (acc ++ p) ++ pre'.flatten := by
      simp [List.flatten_cons, List.append_assoc]
    rw [hassoc1] at hnone
    rw [show acc ++ (p :: pre').flatten ++ c = (acc ++ p) ++ pre'.flatten ++ c from by
      rw [hassoc1]] at hsome ⊢
    have hnone' : splitSep (acc ++ p) = none :=
      splitSep_append_none (t := pre'.flatten) hnone
    rw [List.cons_append, recvLoop, if_neg hp, hnone']
    exact ih (acc ++ p) c post hdrs body
      (fun x hx => hne x (List.mem_cons_of_mem p hx)) hc hnone hsome hcl

/-- When a `content-length: n` line is present in the final header
block, the loop only stops early once at least `n` body bytes have
accumulated: otherwise it consumes every chunk the connection yields. -/
theorem recvLoop_cl_aux (chunks : List Bytes) :
    ∀ (acc data hdrs body : Bytes) (n : Int),
    (∀ x ∈ chunks, x ≠ []) →
    recvLoop acc chunks = Except.ok data →
    splitSep data = some (hdrs, body) →
    findContentLength hdrs = Except.ok (some n) →
    ((body.length : Int) ≥ n ∨ data = acc ++ chunks.flatten) := by
  induction chunks with
  | nil =>
    intro acc data hdrs body n _ hrun _ _
    right
    rw [recvLoop] at hrun
    injection hrun with h
    rw [← h]
    simp
  | cons c rest ih =>
    intro acc data hdrs body n hne hrun hsplit hcl
    have hc : c ≠ [] := hne c (List.mem_cons_self c rest)
    have hne' : ∀ x ∈ rest, x ≠ [] := fun x hx => hne x (List.mem_cons_of_mem c hx)
    have hjoin : acc ++ (c :: rest).flatten = (acc ++ c) ++ rest.flatten := by
      simp [List.flatten_cons, List.append_assoc]
    rw [recvLoop, if_neg hc] at hrun
    split at hrun
    · rcases ih (acc ++ c) data hdrs body n hne' hrun hsplit hcl with h | h
      · exact Or.inl h
      · right; rw [h, hjoin]
    · rename_i h' b' heq
      split at hrun
      · exact absurd hrun (by simp)
      · rename_i hfc
        injection hrun with h
        rw [← h, heq] at hsplit
        injection hsplit with hpair
        injection hpair with h1 h2
        rw [← h1] at hcl
        rw [hfc] at hcl
        exact absurd hcl (by simp)
      · rename_i m hfc
        split at hrun
        · rename_i hlen
          injection hrun with h
          rw [← h, heq] at hsplit
          injection hsplit with hpair
          injection hpair with h1 h2
          rw [← h1] at hcl
          rw [hfc] at hcl
          injection hcl with hcl'
          injection hcl' with hnm
          left
          rw [← h2, ← hnm]
          exact hlen
        · rcases ih (acc ++ c) data hdrs body n hne' hrun hsplit hcl with h | h
          · exact Or.inl h
          · right; rw [h, hjoin]

/-- Claim C3: request framing.  First conjunct: when the header block
(everything before the first `\r\n\r\n`) has no `content-length` line,
the loop stops with exactly the bytes that had arrived up to and
including the chunk in which the separator first appeared — the chunks
in `post` are never read, and the body is whatever followed the
separator in those bytes.  Second conjunct: when a `content-length: n`
line is present, the loop keeps reading until at least `n` body bytes
have accumulated after the separator, unless the connection yields no
further bytes (in which case everything the connection produced was
read). -/
theorem framing_by_content_length :
    (∀ (pre : List Bytes) (c : Bytes) (post : List Bytes) (hdrs body : Bytes),
      (∀ x ∈ pre, x ≠ []) → c ≠ [] →
      splitSep pre.flatten = none →
      splitSep (pre.flatten ++ c) = some (hdrs, body) →
      findContentLength hdrs = Except.ok none →
      recvLoop [] (pre ++ c :: post) = Except.ok (pre.flatten ++ c)) ∧
    (∀ (chunks : List Bytes) (data hdrs body : Bytes) (n : Int),
      (∀ x ∈ chunks, x ≠ []) →
      recvLoop [] chunks = Except.ok data →
      splitSep data = some (hdrs, body) →
      findContentLength hdrs = Except.ok (some n) →
      ((body.length : Int) ≥ n ∨ data = chunks.flatten)) := by
  constructor
  · intro pre c post hdrs body hne hc hnone hsome hcl
    have h := recvLoop_no_cl_aux pre [] c post hdrs body hne hc
      (by simpa using hnone) (by simpa using hsome) hcl
    simpa using h
  · intro chunks data hdrs body n hne hrun hsplit hcl
    have h := recvLoop_cl_aux chunks [] data hdrs body n hne hrun hsplit hcl
    simpa using h

/-- Witness for C3: a GET without `content-length` whose trailing chunk
is ignored, and a POST with `content-length: 8` that consumed the whole
(single-chunk) connection while only 3 body bytes had arrived. -/
theorem framing_by_content_length_witness :
    recvLoop []
        ([strBytes "GET / HT"] ++
          strBytes "TP/1.0\r\n\r\nextra" :: [strBytes "IGNORED"]) =
      Except.ok (List.flatten [strBytes "GET / HT"] ++ strBytes "TP/1.0\r\n\r\nextra") ∧
    (((strBytes "abc").length : Int) ≥ 8 ∨
      strBytes "POST / HTTP/1.0\r\nContent-Length: 8\r\n\r\nabc" =
        List.flatten [strBytes "POST / HTTP/1.0\r\nContent-Length: 8\r\n\r\nabc"]) :=
  ⟨framing_by_content_length.1 [strBytes "GET / HT"] (strBytes "TP/1.0\r\n\r\nextra")
      [strBytes "IGNORED"] (strBytes "GET / HTTP/1.0") (strBytes "extra")
      (by decide) (by decide) (by decide) (by decide) (by rfl),
   framing_by_content_length.2
      [strBytes "POST / HTTP/1.0\r\nContent-Length: 8\r\n\r\nabc"]
      (strBytes "POST / HTTP/1.0\r\nContent-Length: 8\r\n\r\nabc")
      (strBytes "POST / HTTP/1.0\r\nContent-Length: 8") (strBytes "abc") 8
      (by decide) (by rfl) (by decide) (by rfl)⟩

/-! ## File store: paths and the GET handler

`Worker.handle_get_request` (server.py lines 39-72) joins the request
path onto the `static` root, normalizes it with `os.path.normpath`, and
requires the normalized string to start with the normalized root.
Paths are `List Char`; `os.path.normpath` is modelled with `/` as the
separator (the source runs the same component algorithm with the
platform separator). -/

/-- Python `path.lstrip('/')`. -/
def lstripSlash (p : List Char) : List Char := p.dropWhile (fun ch => ch = '/')

/-- Python `os.path.join(root, rel)` for a relative second argument (the
handlers always join onto `static` after `lstrip('/')`, so the second
argument never starts with a separator). -/
def pathJoin (a b : List Char) : List Char := a ++ '/' :: b

/-- Split a path on `/`. -/
def splitSlash : List Char → List (List Char)
  | [] => [[]]
  | ch :: rest =>
    if ch = '/' then [] :: splitSlash rest
    else
      match splitSlash rest with
      | [] => [[ch]]
      | h :: t => (ch :: h) :: t

/-- One step of `os.path.normpath`'s component scan for a relative path:
skip empty and `.` components; on `..` pop the last kept component
unless none is left or it is itself `..`.  Kept components are
accumulated in reverse. -/
def normStep (rstack : List (List Char)) (comp : List Char) : List (List Char) :=
  if comp = [] ∨ comp = ['.'] then rstack
  else if comp = ['.', '.'] then
    match rstack with
    | [] => [['.', '.']]
    | top :: rest => if top = ['.', '.'] then comp :: top :: rest else rest
  else comp :: rstack

/-- Components re-joined with `/`. -/
def joinSlash (cs : List (List Char)) : List Char := (cs.intersperse ['/']).flatten

/-- Python `os.path.normpath` on a relative path. -/
def normpath (p : List Char) : List Char :=
  let r := (splitSlash p).foldl normStep []
  if r = [] then ['.'] else joinSlash r.reverse

/-- The `static` root directory of both handlers. -/
def staticDir : List Char := "static".data

/-- The file system visible to a worker: a finite map from normalized
path strings to regular-file contents.  `os.path.exists(p) and
os.path.isfile(p)` is modelled as a lookup of `p`'s normalized form
(the OS resolves `..` components during lookup), and directories are
not in the map (`isfile` is false for them). -/
structure FileSys where
  files : List (List Char × Bytes)
  deriving DecidableEq, Repr

/-- Content of the regular file that `p` resolves to, when one exists. -/
def fsLookup (fs : FileSys) (p : List Char) : Option Bytes :=
  (fs.files.find? (fun e => e.1 = normpath p)).map Prod.snd

/-- Effect of `open(p, 'w')` followed by a completed write. -/
def fsInsert (fs : FileSys) (p : List Char) (content : Bytes) : FileSys :=
  ⟨(normpath p, content) :: fs.files.filter (fun e => e.1 ≠ normpath p)⟩

/-- Effect of `os.remove(p)` (a no-op when the file is absent, matching
the guarded `if os.path.exists: os.remove` of the source). -/
def fsRemove (fs : FileSys) (p : List Char) : FileSys :=
  ⟨fs.files.filter (fun e => e.1 ≠ normpath p)⟩

/-- Python `os.path.getsize`, on a path known to be in the map. -/
def fsSize (fs : FileSys) (p : List Char) : Nat :=
  ((fsLookup fs p).getD []).length

/-- Response of the GET handler: status, the `Content-Type` header when
one is emitted, and the body. -/
structure GetResponse where
  status : Nat
  contentType : Option (List Char)
  content : Bytes
  deriving DecidableEq, Repr

/-- `Worker.handle_get_request` (server.py lines 39-72), for executions
in which the OS raises no exception: `file_path` is
`os.path.join("static", path.lstrip('/'))`; the containment check is
`os.path.normpath(file_path).startswith(os.path.normpath("static"))`, a
string-prefix test; a successful read always carries
`Content-Type: text/plain`. -/
def workerHandleGet (fs : FileSys) (path : List Char) : GetResponse :=
  if ¬ (normpath staticDir).isPrefixOf
      (normpath (pathJoin staticDir (lstripSlash path))) then
    ⟨403, none, strBytes "Access forbidden"⟩
  else
    match fsLookup fs (pathJoin staticDir (lstripSlash path)) with
    | some content => ⟨200, some "text/plain".data, content⟩
    | none => ⟨404, none, strBytes "File not found"⟩

/-- Property following the spec's words for C4: the requested path,
joined onto the root and normalized, resolves outside the root (it is
neither the root itself nor strictly below it). -/
def resolvesOutsideRoot (path : List Char) : Prop :=
  ¬ (normpath (pathJoin staticDir (lstripSlash path)) = normpath staticDir ∨
     (normpath staticDir ++ ['/']).isPrefixOf
       (normpath (pathJoin staticDir (lstripSlash path))))

instance (path : List Char) : Decidable (resolvesOutsideRoot path) := by
  unfold resolvesOutsideRoot
  infer_instance

/-- A one-file file system holding `secret` in a regular file whose
resolved location `staticX` is a sibling of the root, hence outside it. -/
def fsOutside : FileSys := ⟨[("staticX".data, strBytes "secret")]⟩

/-- Counterexample to C4 as stated: the GET path `/../staticX` resolves
outside the root, yet the handler answers 200 and returns the file's
content, because the containment check is a string-prefix test and
`staticX` starts with the string `static`. -/
theorem get_outside_root_counterexample :
    resolvesOutsideRoot "/../staticX".data ∧
    (workerHandleGet fsOutside "/../staticX".data).status = 200 ∧
    (workerHandleGet fsOutside "/../staticX".data).content = strBytes "secret" :=
  ⟨by decide, by decide, by decide⟩

/-- Claim C4 (amended): the Worker answers 403 — never 200, and with the
fixed body `Access forbidden` in place of any file content — exactly for
those GET paths whose normalized joined form fails the *string-prefix*
test against the normalized root.  A path resolving outside the root
whose normalized form nevertheless starts with the string `static`
(a sibling such as `staticX`) passes the check and can be served with
200 and the file's content. -/
theorem get_outside_root_resolution (fs : FileSys) (path : List Char)
    (h : ¬ (normpath staticDir).isPrefixOf
        (normpath (pathJoin staticDir (lstripSlash path)))) :
    (workerHandleGet fs path).status = 403 ∧
    (workerHandleGet fs path).status ≠ 200 ∧
    (workerHandleGet fs path).content = strBytes "Access forbidden" := by
  unfold workerHandleGet
  rw [if_pos h]
  exact ⟨rfl, by decide, rfl⟩

/-- Witness for the amended C4 at the traversal path `/../server.log`
from the spec's own example. -/
theorem get_outside_root_resolution_witness :
    (¬ (normpath staticDir).isPrefixOf
        (normpath (pathJoin staticDir (lstripSlash "/../server.log".data)))) ∧
    (workerHandleGet fsOutside "/../server.log".data).status = 403 :=
  ⟨by decide,
   (get_outside_root_resolution fsOutside "/../server.log".data (by decide)).1⟩

/-! ## Content types -/

/-- Python `pathlib.PurePath.suffix`: in the final path component, the
part from the last dot on, unless that dot is the component's first or
last character (then the suffix is empty). -/
def pathSuffix (p : List Char) : List Char :=
  let name := (splitSlash p).getLastD []
  match name.reverse.findIdx? (fun ch => ch = '.') with
  | none => []
  | some j =>
    let i := name.length - 1 - j
    if 0 < i ∧ i + 1 < name.length then name.drop i else []

/-- The extension table applied to a suffix, as in
`RequestHandler.handle_get_request` (request_handler.py lines 70-77):
default `text/plain`, overridden for `.html`, `.jpg`/`.jpeg`, `.png`. -/
def ctypeOf (s : List Char) : List Char :=
  if s = ".html".data then "text/html".data
  else if s = ".jpg".data ∨ s = ".jpeg".data then "image/jpeg".data
  else if s = ".png".data then "image/png".data
  else "text/plain".data

/-- Content type computed by `RequestHandler.handle_get_request` from
`file_path.suffix`. -/
def handlerContentType (filePath : List Char) : List Char :=
  ctypeOf (pathSuffix filePath)

/-- A file system holding an `.html` file under the root. -/
def fsHtml : FileSys := ⟨[("static/x.html".data, strBytes "<h1>hi</h1>")]⟩

/-- Counterexample to C7 as stated: a GET of an existing `.html` file is
served by the Worker with status 200 and `Content-Type: text/plain`,
not `text/html` as the extension table would require. -/
theorem get_content_type_counterexample :
    pathSuffix (pathJoin staticDir (lstripSlash "/x.html".data)) = ".html".data ∧
    (workerHandleGet fsHtml "/x.html".data).status = 200 ∧
    (workerHandleGet fsHtml "/x.html".data).contentType = some "text/plain".data ∧
    "text/plain".data ≠ "text/html".data :=
  ⟨by decide, by decide, by decide, by decide⟩

/-- Claim C7 (amended): the running server's Worker serves every
successful GET with `Content-Type: text/plain` regardless of the file's
extension; the claimed extension table (`.html` → text/html,
`.jpg`/`.jpeg` → image/jpeg, `.png` → image/png, else text/plain) is
implemented only by `RequestHandler.handle_get_request`, which is not
referenced by the server, and there it does determine the content type
solely from the suffix. -/
theorem get_content_type_resolution :
    (∀ (fs : FileSys) (p : List Char), (workerHandleGet fs p).status = 200 →
      (workerHandleGet fs p).contentType = some "text/plain".data) ∧
    (∀ p : List Char,
      (pathSuffix p = ".html".data → handlerContentType p = "text/html".data) ∧
      ((pathSuffix p = ".jpg".data ∨ pathSuffix p = ".jpeg".data) →
        handlerContentType p = "image/jpeg".data) ∧
      (pathSuffix p = ".png".data → handlerContentType p = "image/png".data) ∧
      (pathSuffix p ≠ ".html".data → pathSuffix p ≠ ".jpg".data →
        pathSuffix p ≠ ".jpeg".data → pathSuffix p ≠ ".png".data →
        handlerContentType p = "text/plain".data)) := by
  constructor
  · intro fs p h200
    unfold workerHandleGet at h200 ⊢
    split at h200
    · exact absurd h200 (by decide)
    · rename_i hpre
      rw [if_neg hpre]
      cases hl : fsLookup fs (pathJoin staticDir (lstripSlash p)) with
      | some content => rfl
      | none =>
        rw [hl] at h200
        exact absurd h200 (by decide)
  · intro p
    unfold handlerContentType ctypeOf
    refine ⟨?_, ?_, ?_, ?_⟩
    · intro h; rw [if_pos h]
    · intro h
      have hne : pathSuffix p ≠ ".html".data := by
        rcases h with h | h <;> rw [h] <;> decide
      rw [if_neg hne, if_pos h]
    · intro h
      have hne1 : pathSuffix p ≠ ".html".data := by rw [h]; decide
      have hne2 : ¬ (pathSuffix p = ".jpg".data ∨ pathSuffix p = ".jpeg".data) := by
        rw [h]; decide
      rw [if_neg hne1, if_neg hne2, if_pos h]
    · intro h1 h2 h3 h4
      rw [if_neg h1, if_neg (by tauto), if_neg h4]

/-- Witness for the amended C7: a plain-text GET through the Worker and
each row of the `RequestHandler` table. -/
theorem get_content_type_resolution_witness :
    (workerHandleGet fsHtml "/x.html".data).contentType = some "text/plain".data ∧
    handlerContentType "static/x.html".data = "text/html".data ∧
    handlerContentType "static/x.jpg".data = "image/jpeg".data ∧
    handlerContentType "static/x.png".data = "image/png".data ∧
    handlerContentType "static/x.txt".data = "text/plain".data :=
  ⟨get_content_type_resolution.1 fsHtml "/x.html".data (by decide),
   (get_content_type_resolution.2 "static/x.html".data).1 (by decide),
   (get_content_type_resolution.2 "static/x.jpg".data).2.1 (Or.inl (by decide)),
   (get_content_type_resolution.2 "static/x.png".data).2.2.1 (by decide),
   (get_content_type_resolution.2 "static/x.txt".data).2.2.2
     (by decide) (by decide) (by decide) (by decide)⟩

/-! ## POST handling -/

/-- ASCII whitespace stripped by Python `str.strip()` (the Unicode-only
whitespace code points are not modelled). -/
def isPySpace (ch : Char) : Bool :=
  ch = ' ' || ch = '\t' || ch = '\n' || ch = '\r' ||
  ch = Char.ofNat 11 || ch = Char.ofNat 12

/-- Python `str.strip()`. -/
def pyStrip (s : List Char) : List Char :=
  ((s.dropWhile isPySpace).reverse.dropWhile isPySpace).reverse

/-- Destination filename chosen by `Worker.handle_post_request`
(server.py lines 83-85): always `f"{timestamp}_{request_id}.txt"` from
`datetime.now()` and the first 8 characters of a fresh `uuid4`.  The
request path is a parameter of the embedding only to record that the
code never consults it. -/
def workerPostFilename (_requestPath timestamp requestId : List Char) : List Char :=
  timestamp ++ '_' :: (requestId ++ ".txt".data)

/-- Destination filename chosen by `RequestHandler.handle_post_request`
(request_handler.py lines 28-30): the `/`-stripped request path when
non-empty, otherwise `f"uploaded_file_{int(time.time())}"`. -/
def handlerPostFilename (requestPath : List Char) (unixTime : Nat) : List Char :=
  if lstripSlash requestPath = [] then
    "uploaded_file_".data ++ Nat.toDigits 10 unixTime
  else lstripSlash requestPath

/-- Whether the OS raises inside the file-write block of
`Worker.handle_post_request` (server.py lines 90-100). -/
inductive WriteResult
  | success
  | ioError
  deriving DecidableEq, Repr

/-- `Worker.handle_post_request` (server.py lines 74-116): status and
resulting file system.  `body` is `request_data.get('content', '')`;
on a write exception the partial file is removed and the outer `except`
answers 500; after a completed write, a zero-size file is removed and
500 is answered; otherwise 201. -/
def workerHandlePost (fs : FileSys) (path body timestamp requestId : List Char)
    (w : WriteResult) : Nat × FileSys :=
  if pyStrip body = [] then (400, fs)
  else
    match w with
    | WriteResult.ioError =>
      (500, fsRemove fs (pathJoin staticDir (workerPostFilename path timestamp requestId)))
    | WriteResult.success =>
      if fsSize
          (fsInsert fs (pathJoin staticDir (workerPostFilename path timestamp requestId))
            (charsToBytes (pyStrip body)))
          (pathJoin staticDir (workerPostFilename path timestamp requestId)) = 0 then
        (500, fsRemove
          (fsInsert fs (pathJoin staticDir (workerPostFilename path timestamp requestId))
            (charsToBytes (pyStrip body)))
          (pathJoin staticDir (workerPostFilename path timestamp requestId)))
      else
        (201, fsInsert fs (pathJoin staticDir (workerPostFilename path timestamp requestId))
          (charsToBytes (pyStrip body)))

/-- The POST path of `_process_request_wrapper` (server.py lines
238-273) composed with the Worker: the empty-body 400 precedes
admission; a full counter answers 503 without touching the file system;
an admitted POST runs the Worker and then releases its slot.  Returns
status, file system, and counter. -/
def postPipeline (counter : Int) (fs : FileSys)
    (path body timestamp requestId : List Char) (w : WriteResult) :
    Nat × FileSys × Int :=
  if pyStrip body = [] then (400, fs, counter)
  else
    if (tryAcquire counter).2 then
      ((workerHandlePost fs path body timestamp requestId w).1,
       (workerHandlePost fs path body timestamp requestId w).2,
       release (tryAcquire counter).1)
    else (503, fs, (tryAcquire counter).1)

/-- Looking up the freshly written path finds the freshly written
content. -/
theorem fsLookup_insert (fs : FileSys) (p : List Char) (v : Bytes) :
    fsLookup (fsInsert fs p v) p = some v := by
  unfold fsLookup fsInsert
  rw [List.find?_cons_of_pos _ (by simp)]
  rfl

/-- A non-empty stripped body never encodes to zero bytes. -/
theorem charsToBytes_ne_zero {s : List Char} (h : s ≠ []) :
    (charsToBytes s).length ≠ 0 := by
  simpa [charsToBytes, List.length_eq_zero] using h

/-- With a non-empty stripped body, the Worker's POST answers 201 when
the write completes and 500 when the OS raises during it. -/
theorem workerHandlePost_nonempty (fs : FileSys) (path body ts rid : List Char)
    (hb : pyStrip body ≠ []) :
    (workerHandlePost fs path body ts rid WriteResult.success).1 = 201 ∧
    (workerHandlePost fs path body ts rid WriteResult.ioError).1 = 500 := by
  refine ⟨?_, by unfold workerHandlePost; rw [if_neg hb]⟩
  unfold workerHandlePost
  rw [if_neg hb]
  have hsize : fsSize
      (fsInsert fs (pathJoin staticDir (workerPostFilename path ts rid))
        (charsToBytes (pyStrip body)))
      (pathJoin staticDir (workerPostFilename path ts rid)) =
      (charsToBytes (pyStrip body)).length := by
    unfold fsSize
    rw [fsLookup_insert]
    rfl
  rw [if_neg (by rw [hsize]; exact charsToBytes_ne_zero hb)]

/-- Counterexample to C5 as stated: a successful POST (status 201) whose
request path `/report.txt` is present and non-empty leaves no file at
that relative path; the file is created under the generated
`timestamp_requestid.txt` name instead. -/
theorem post_filename_counterexample :
    lstripSlash "/report.txt".data ≠ [] ∧
    (workerHandlePost ⟨[]⟩ "/report.txt".data "data".data
      "20250101_120000".data "abcd1234".data WriteResult.success).1 = 201 ∧
    fsLookup (workerHandlePost ⟨[]⟩ "/report.txt".data "data".data
        "20250101_120000".data "abcd1234".data WriteResult.success).2
      (pathJoin staticDir (lstripSlash "/report.txt".data)) = none ∧
    fsLookup (workerHandlePost ⟨[]⟩ "/report.txt".data "data".data
        "20250101_120000".data "abcd1234".data WriteResult.success).2
      (pathJoin staticDir "20250101_120000_abcd1234.txt".data) =
      some (charsToBytes "data".data) :=
  ⟨by decide, by decide, by decide, by decide⟩

/-- Claim C5 (amended): the server's Worker always writes to a freshly
generated `timestamp_requestid.txt` name and never to the
request-provided path; only the unreferenced
`RequestHandler.handle_post_request` uses the request path when it is
present and non-empty, and its fallback name combines the Unix
timestamp with no random component. -/
theorem post_filename_resolution :
    (∀ path ts rid : List Char,
      workerPostFilename path ts rid = ts ++ '_' :: (rid ++ ".txt".data)) ∧
    (∀ (path : List Char) (t : Nat), lstripSlash path ≠ [] →
      handlerPostFilename path t = lstripSlash path) ∧
    (∀ (path : List Char) (t : Nat), lstripSlash path = [] →
      handlerPostFilename path t = "uploaded_file_".data ++ Nat.toDigits 10 t) := by
  refine ⟨fun _ _ _ => rfl, ?_, ?_⟩
  · intro path t h
    unfold handlerPostFilename
    rw [if_neg h]
  · intro path t h
    unfold handlerPostFilename
    rw [if_pos h]

/-- Witness for the amended C5 at concrete paths. -/
theorem post_filename_resolution_witness :
    workerPostFilename "/report.txt".data "ts0".data "id0".data =
      "ts0".data ++ '_' :: ("id0".data ++ ".txt".data) ∧
    (lstripSlash "/report.txt".data ≠ [] ∧
      handlerPostFilename "/report.txt".data 7 = lstripSlash "/report.txt".data) ∧
    (lstripSlash "/".data = [] ∧
      handlerPostFilename "/".data 7 = "uploaded_file_".data ++ Nat.toDigits 10 7) :=
  ⟨post_filename_resolution.1 "/report.txt".data "ts0".data "id0".data,
   ⟨by decide, post_filename_resolution.2.1 "/report.txt".data 7 (by decide)⟩,
   ⟨by decide, post_filename_resolution.2.2 "/".data 7 (by decide)⟩⟩

/-- Claim C6: across the POST path of the wrapper composed with the
Worker, the status is 400 exactly when the (decoded) body strips to
empty, in which case the file system is untouched; an admitted POST with
a non-empty stripped body and a completed write answers 201. -/
theorem post_status_400_iff (c : Int) (fs : FileSys)
    (path body ts rid : List Char) (w : WriteResult) :
    ((postPipeline c fs path body ts rid w).1 = 400 ↔ pyStrip body = []) ∧
    (pyStrip body = [] → (postPipeline c fs path body ts rid w).2.1 = fs) ∧
    ((tryAcquire c).2 = true → pyStrip body ≠ [] → w = WriteResult.success →
      (postPipeline c fs path body ts rid w).1 = 201) := by
  by_cases hb : pyStrip body = []
  · unfold postPipeline
    rw [if_pos hb]
    exact ⟨⟨fun _ => hb, fun _ => rfl⟩, fun _ => rfl, fun _ hne _ => absurd hb hne⟩
  · unfold postPipeline
    rw [if_neg hb]
    by_cases hacq : (tryAcquire c).2 = true
    · rw [if_pos hacq]
      have hw := workerHandlePost_nonempty fs path body ts rid hb
      cases w with
      | success =>
        rw [hw.1]
        exact ⟨⟨fun h => absurd h (by decide), fun h => absurd h hb⟩,
          fun h => absurd h hb, fun _ _ _ => rfl⟩
      | ioError =>
        rw [hw.2]
        exact ⟨⟨fun h => absurd h (by decide), fun h => absurd h hb⟩,
          fun h => absurd h hb,
          fun _ _ hsw => WriteResult.noConfusion hsw⟩
    · rw [if_neg hacq]
      exact ⟨⟨fun h => absurd h (by simp), fun h => absurd h hb⟩,
        fun h => absurd h hb,
        fun h _ _ => absurd h hacq⟩

/-- Witness for C6: an accepted POST of `hi` from counter 0 answers 201,
and an empty-body POST answers 400 leaving the file system unchanged. -/
theorem post_status_400_iff_witness :
    (tryAcquire 0).2 = true ∧ pyStrip "hi".data ≠ [] ∧
    (postPipeline 0 ⟨[]⟩ "/u".data "hi".data "t".data "r".data
      WriteResult.success).1 = 201 ∧
    pyStrip "  ".data = [] ∧
    (postPipeline 0 ⟨[]⟩ "/u".data "  ".data "t".data "r".data
      WriteResult.success).2.1 = (⟨[]⟩ : FileSys) :=
  ⟨by decide, by decide,
   (post_status_400_iff 0 ⟨[]⟩ "/u".data "hi".data "t".data "r".data
     WriteResult.success).2.2 (by decide) (by decide) rfl,
   by decide,
   (post_status_400_iff 0 ⟨[]⟩ "/u".data "  ".data "t".data "r".data
     WriteResult.success).2.1 (by decide)⟩

/-- Claim C10: with a body that strips to non-empty (checked before the
write) and a write the OS completes, the written file's size equals the
stripped body's encoded length, which is positive, so the
`os.path.getsize(file_path) == 0` delete-and-raise branch is not taken:
the POST answers 201 and leaves the file holding exactly the stripped
body. -/
theorem post_zero_byte_guard_unreachable (fs : FileSys)
    (path body ts rid : List Char) (h : pyStrip body ≠ []) :
    (workerHandlePost fs path body ts rid WriteResult.success).1 = 201 ∧
    fsLookup (workerHandlePost fs path body ts rid WriteResult.success).2
      (pathJoin staticDir (workerPostFilename path ts rid)) =
      some (charsToBytes (pyStrip body)) ∧
    (charsToBytes (pyStrip body)).length = (pyStrip body).length ∧
    0 < (charsToBytes (pyStrip body)).length := by
  have hsize : fsSize
      (fsInsert fs (pathJoin staticDir (workerPostFilename path ts rid))
        (charsToBytes (pyStrip body)))
      (pathJoin staticDir (workerPostFilename path ts rid)) =
      (charsToBytes (pyStrip body)).length := by
    unfold fsSize
    rw [fsLookup_insert]
    rfl
  unfold workerHandlePost
  rw [if_neg h, if_neg (by rw [hsize]; exact charsToBytes_ne_zero h)]
  refine ⟨rfl, fsLookup_insert .., List.length_map .., ?_⟩
  exact Nat.pos_of_ne_zero (charsToBytes_ne_zero h)

/-- Witness for C10 at the stripped body `hello`. -/
theorem post_zero_byte_guard_unreachable_witness :
    pyStrip " hello ".data ≠ [] ∧
    (workerHandlePost ⟨[]⟩ "/u".data " hello ".data "t".data "r".data
      WriteResult.success).1 = 201 :=
  ⟨by decide,
   (post_zero_byte_guard_unreachable ⟨[]⟩ "/u".data " hello ".data
     "t".data "r".data (by decide)).1⟩

/-! ## First-line parsing (wrapper, server.py lines 226-236) -/

/-- Python `request_data.split(b'\r\n\r\n', 1)[0]`: the header block,
or all of the data when the separator is absent. -/
def headerPart (data : Bytes) : Bytes :=
  match splitSep data with
  | some pr => pr.1
  | none => data

/-- Python `bytes.decode()`, modelled for ASCII byte strings; bytes of
128 and above (which in Python start a multi-byte sequence or raise
`UnicodeDecodeError`) are modelled as a decode failure, exact for the
ASCII data the claims quantify over. -/
def decodeAscii (l : Bytes) : Option (List Char) :=
  if l.all (fun b => b < 128) then some (l.map Char.ofNat) else none

/-- Python `headers.split('\n')[0]`. -/
def takeBeforeNL (s : List Char) : List Char :=
  s.takeWhile (fun ch => ch ≠ '\n')

/-- Python `str.split()` with no argument: maximal runs of
non-whitespace, with no empty tokens.  `cur` holds the current token
reversed. -/
def splitWsAux : List Char → List Char → List (List Char)
  | [], cur => if cur = [] then [] else [cur.reverse]
  | ch :: rest, cur =>
    if isPySpace ch then
      if cur = [] then splitWsAux rest [] else cur.reverse :: splitWsAux rest []
    else splitWsAux rest (ch :: cur)

/-- Python `str.split()` with no argument. -/
def pySplitWs (s : List Char) : List (List Char) := splitWsAux s []

/-- Result of the framing and first-line parsing part of
`_process_request_wrapper` before any routing. -/
inductive EarlyOutcome
  | closedSilently
  | badRequest
  | serverError
  | parsed (method path version : List Char)
  deriving DecidableEq, Repr

/-- Framing plus first-line parse of `_process_request_wrapper`
(server.py lines 208-236): if `request_data` is empty, return without
sending anything; otherwise decode the header block and require the
stripped first line to split into exactly three whitespace-separated
tokens (`method, path, _ = first_line.split()`); any failure in this
`try` — including undecodable bytes — is answered with the
`400 Invalid request format` response. -/
def wrapperEarly (chunks : List Bytes) : EarlyOutcome :=
  match recvLoop [] chunks with
  | Except.error _ => EarlyOutcome.serverError
  | Except.ok data =>
    if data = [] then EarlyOutcome.closedSilently
    else
      match decodeAscii (headerPart data) with
      | none => EarlyOutcome.badRequest
      | some hs =>
        match pySplitWs (pyStrip (takeBeforeNL hs)) with
        | [m, p, v] => EarlyOutcome.parsed m p v
        | _ => EarlyOutcome.badRequest

/-- Claim C8: a request whose first line does not split into exactly
three whitespace-separated tokens is answered with the 400 response, and
a connection that yields zero bytes is closed with no response sent. -/
theorem first_line_arity (chunks : List Bytes) (data : Bytes) (hs : List Char) :
    (recvLoop [] chunks = Except.ok data → data ≠ [] →
      decodeAscii (headerPart data) = some hs →
      (pySplitWs (pyStrip (takeBeforeNL hs))).length ≠ 3 →
      wrapperEarly chunks = EarlyOutcome.badRequest) ∧
    (recvLoop [] chunks = Except.ok [] →
      wrapperEarly chunks = EarlyOutcome.closedSilently) := by
  constructor
  · intro hrun hne hdec hlen
    unfold wrapperEarly
    simp only [hrun, if_neg hne, hdec]
    generalize hl : pySplitWs (pyStrip (takeBeforeNL hs)) = l
    rw [hl] at hlen
    rcases l with _ | ⟨m, _ | ⟨p, _ | ⟨v, _ | ⟨x, t⟩⟩⟩⟩
    · rfl
    · rfl
    · rfl
    · exact absurd rfl hlen
    · rfl
  · intro hrun
    unfold wrapperEarly
    simp only [hrun]
    rfl

/-- Witness for C8: a four-token first line answered 400, and an
immediately closed connection answered with nothing. -/
theorem first_line_arity_witness :
    wrapperEarly [strBytes "GET /x HTTP/1.0 EXTRA\r\n\r\n"] =
      EarlyOutcome.badRequest ∧
    wrapperEarly [[]] = EarlyOutcome.closedSilently :=
  ⟨(first_line_arity [strBytes "GET /x HTTP/1.0 EXTRA\r\n\r\n"]
      (strBytes "GET /x HTTP/1.0 EXTRA\r\n\r\n")
      "GET /x HTTP/1.0 EXTRA".data).1
      (by rfl) (by decide) (by rfl) (by decide),
   (first_line_arity [[]] [] []).2 (by rfl)⟩

/-! ## Worker request loop and logging (server.py lines 118-153) -/

/-- One log line appended by `Worker.log_request` (server.py lines
118-124); the wall-clock timestamp is not modelled. -/
structure LogLine where
  workerId : Nat
  method : List Char
  path : List Char
  status : Nat
  deriving DecidableEq, Repr

/-- One iteration of `Worker.run`'s request handling (server.py lines
137-153): route on the method (GET, POST, otherwise 405) and append
exactly one log line with the method, path and response status via
`log_request`.  `gexn` models an OS exception inside
`handle_get_request`'s `try`, whose `except` arm returns the 500
response (also logged); the failure paths of POST are the
`WriteResult` parameter. -/
def workerRunOnce (wid : Nat) (fs : FileSys)
    (method path body ts rid : List Char) (gexn : Bool) (w : WriteResult) :
    Nat × List LogLine :=
  if method = "GET".data then
    ((if gexn then 500 else (workerHandleGet fs path).status),
     [⟨wid, method, path, if gexn then 500 else (workerHandleGet fs path).status⟩])
  else if method = "POST".data then
    ((workerHandlePost fs path body ts rid w).1,
     [⟨wid, method, path, (workerHandlePost fs path body ts rid w).1⟩])
  else (405, [⟨wid, method, path, 405⟩])

/-- Claim C9: every handled request — GET and POST included, and
including internal failures mapped to 500 — produces exactly one log
line, and that line carries the request's method, path, and the response
status. -/
theorem request_logged_once (wid : Nat) (fs : FileSys)
    (method path body ts rid : List Char) (gexn : Bool) (w : WriteResult) :
    (workerRunOnce wid fs method path body ts rid gexn w).2.length = 1 ∧
    ∀ e ∈ (workerRunOnce wid fs method path body ts rid gexn w).2,
      e.method = method ∧ e.path = path ∧
      e.status = (workerRunOnce wid fs method path body ts rid gexn w).1 := by
  unfold workerRunOnce
  split_ifs <;>
    exact ⟨rfl, by
      intro e he
      rw [List.mem_singleton] at he
      subst he
      exact ⟨rfl, rfl, rfl⟩⟩

/-- Witness for C9: a GET of a missing file (404) logs one line with its
method, path and status. -/
theorem request_logged_once_witness :
    (workerRunOnce 0 ⟨[]⟩ "GET".data "/a".data [] [] [] false
      WriteResult.success).2.length = 1 ∧
    ((⟨0, "GET".data, "/a".data, 404⟩ : LogLine).method = "GET".data ∧
     (⟨0, "GET".data, "/a".data, 404⟩ : LogLine).path = "/a".data ∧
     (⟨0, "GET".data, "/a".data, 404⟩ : LogLine).status =
       (workerRunOnce 0 ⟨[]⟩ "GET".data "/a".data [] [] [] false
         WriteResult.success).1) :=
  ⟨(request_logged_once 0 ⟨[]⟩ "GET".data "/a".data [] [] [] false
      WriteResult.success).1,
   (request_logged_once 0 ⟨[]⟩ "GET".data "/a".data [] [] [] false
      WriteResult.success).2 ⟨0, "GET".data, "/a".data, 404⟩ (by decide)⟩

end PyThreadServe
